import Mathlib

/-!
Verification of `matches_location_word_boundary` from `src/config.py` of the
job-board repository.

The Python function is

    def matches_location_word_boundary(text, allowed_locations=None):
        if allowed_locations is None:
            allowed_locations = DEFAULT_LOCATIONS['allowed']
        text_lower = text.lower()
        for term in allowed_locations:
            pattern = r'\b' + re.escape(term.lower()) + r'\b'
            if re.search(pattern, text_lower):
                return True
        return False

Shallow embedding choices:
* Strings are Lean `String`s, processed as their `List Char` data.
* `str.lower()` is modelled by mapping `Char.toLower`, and the regex word
  class `\w` by `isWordChar` (letter, digit or underscore).  Both are the
  ASCII fragments of Python's Unicode-aware `str.lower()` and `\w`: they
  agree with Python exactly on ASCII code points and are not meaningful
  beyond them.  Accordingly, every theorem below that quantifies over
  arbitrary texts or terms and whose truth depends on the character classes
  carries `asciiOnly` hypotheses restricting it to the fragment on which the
  embedding is character-exact; theorems without such hypotheses depend only
  on control-flow structure (loop order, the `is None` test, lower-casing
  idempotence) and hold for Python's classes verbatim.
* `re.escape(term)` makes every character of `term` match literally, so the
  truthiness of `re.search(r'\b' + re.escape(term) + r'\b', text)` is exactly:
  some index `i` at which `term` occurs literally in `text` and the `\b`
  assertion holds both at `i` and at `i + len(term)`.  `\b` holds at a
  position iff exactly one of the two adjacent characters is a word
  character, a character beyond either end of the string counting as
  non-word.  This composite semantics is `termSearch` below.
* The Python default argument `allowed_locations=None` is modelled by an
  explicit `Option (List String)` parameter, `none` standing for an omitted
  argument.
-/

namespace JobBoard

/-- ASCII fragment of the regex word-character class `\w`: letter (`A`-`Z`,
`a`-`z`), digit (`0`-`9`) or underscore (code point 95), expressed on code
points.  Python's `\w` on `str` patterns further contains the non-ASCII
Unicode letters and digits; this definition agrees with it exactly on ASCII
characters, and theorems whose truth depends on `\w` membership of arbitrary
characters are therefore stated under `asciiOnly` hypotheses. -/
def isWordChar (c : Char) : Bool :=
  decide ((65 ≤ c.toNat ∧ c.toNat ≤ 90) ∨ (97 ≤ c.toNat ∧ c.toNat ≤ 122) ∨
    (48 ≤ c.toNat ∧ c.toNat ≤ 57) ∨ c.toNat = 95)

/-- `str.lower()` on the character list of a string.  `Char.toLower` is the
ASCII fragment of Python's Unicode case mapping: it agrees with Python
exactly on ASCII characters (and fixes everything else), so theorems whose
truth depends on lower-casing arbitrary characters are stated under
`asciiOnly` hypotheses. -/
def lowerL (s : List Char) : List Char :=
  s.map Char.toLower

/-- `str.lower()` as a `String` to `String` function. -/
def lowerString (s : String) : String :=
  String.mk (lowerL s.data)

/-- Whether the character at index `i` of `s` is a word character; an index
beyond the end of the string counts as a non-word position. -/
def wordAt (s : List Char) (i : Nat) : Bool :=
  match s[i]? with
  | some c => isWordChar c
  | none => false

/-- The regex assertion `\b` holds at position `i` of `s` (a position lies
between characters; position `0` is before the first character): exactly one
of the character before and the character after the position is a word
character, the outside of the string counting as non-word. -/
def boundaryAt (s : List Char) (i : Nat) : Bool :=
  (decide (0 < i) && wordAt s (i - 1)) != wordAt s i

/-- `t` occurs literally in `s` starting at index `i`. -/
def occursAt (s t : List Char) (i : Nat) : Bool :=
  decide ((s.drop i).take t.length = t)

/-- Embedding of the truthiness of
`re.search(r'\b' + re.escape(t) + r'\b', s)`: some start position
`i ≤ s.length` carries a literal occurrence of `t` with `\b` satisfied at
both ends of the occurrence. -/
def termSearch (s t : List Char) : Bool :=
  (List.range (s.length + 1)).any (fun i =>
    occursAt s t i && boundaryAt s i && boundaryAt s (i + t.length))

/-- `DEFAULT_LOCATIONS['allowed']` from `src/config.py`. -/
def DEFAULT_LOCATIONS_allowed : List String :=
  ["united states", "usa", "u.s.", "america",
   "canada", "north america", "americas", "us/canada",
   "remote", "worldwide", "global", "anywhere"]

/-- Embedding of `matches_location_word_boundary(text, allowed_locations)`.
`none` models the omitted Python argument (`allowed_locations=None`); the
`for` loop with early `return True` and final `return False` is `List.any`. -/
def matches_location_word_boundary (text : String)
    (allowed_locations : Option (List String)) : Bool :=
  let allowed := match allowed_locations with
    | none => DEFAULT_LOCATIONS_allowed
    | some l => l
  let text_lower := lowerL text.data
  allowed.any (fun term => termSearch text_lower (lowerL term.data))

/-- `Char.ofNat` of a valid (small) code point reads back as the same `Nat`. -/
theorem toNat_ofNat_valid {n : Nat} (h : n < 55296) : (Char.ofNat n).toNat = n := by
  have hv : Nat.isValidChar n := Or.inl h
  simp only [Char.ofNat, dif_pos hv]
  rfl

/-- Unfolding of `Char.toLower` with its `let` binding reduced. -/
theorem toLower_eq_ite (c : Char) :
    Char.toLower c =
      if c.toNat ≥ 65 ∧ c.toNat ≤ 90 then Char.ofNat (c.toNat + 32) else c := rfl

/-- Arithmetic characterisation of `Char.toLower` at the code-point level. -/
theorem toNat_toLower (c : Char) :
    (Char.toLower c).toNat =
      if c.toNat ≥ 65 ∧ c.toNat ≤ 90 then c.toNat + 32 else c.toNat := by
  rw [toLower_eq_ite]
  by_cases hc : c.toNat ≥ 65 ∧ c.toNat ≤ 90
  · rw [if_pos hc, if_pos hc]
    exact toNat_ofNat_valid (by omega)
  · rw [if_neg hc, if_neg hc]

/-- `Char.toLower` fixes any character outside the upper-case ASCII range. -/
theorem toLower_eq_self_of_not {d : Char} (h : ¬(d.toNat ≥ 65 ∧ d.toNat ≤ 90)) :
    Char.toLower d = d := by
  rw [toLower_eq_ite]
  exact if_neg h

/-- `Char.toLower` is idempotent. -/
theorem toLower_toLower (c : Char) : (Char.toLower c).toLower = Char.toLower c := by
  have h := toNat_toLower c
  apply toLower_eq_self_of_not
  by_cases hc : c.toNat ≥ 65 ∧ c.toNat ≤ 90
  · rw [if_pos hc] at h; omega
  · rw [if_neg hc] at h; omega

/-- Lower-casing a string is idempotent. -/
theorem lowerL_lowerL (s : List Char) : lowerL (lowerL s) = lowerL s := by
  unfold lowerL
  rw [List.map_map]
  exact List.map_congr_left (fun a _ => toLower_toLower a)

/-- Two booleans agreeing as propositions are equal. -/
theorem bool_eq_of_iff {a b : Bool} (h : a = true ↔ b = true) : a = b := by
  cases a <;> cases b <;> simp_all

/-! ### The empty pattern: a `\b\b` search succeeds exactly on texts with a
word character -/

/-- C2 (counterexample): with an explicitly supplied empty allow-list the
function returns `false`, not the default-list result `true`: the code
substitutes the default only for the omitted (`None`) argument. -/
theorem C2_counterexample :
    matches_location_word_boundary "Remote (Worldwide)" (some []) = false ∧
      matches_location_word_boundary "Remote (Worldwide)"
        (some DEFAULT_LOCATIONS_allowed) = true := by
  refine ⟨by decide, by decide⟩

/-- C2 (amended): omitting the allow-list argument (`None`) behaves exactly as
supplying the built-in default list, and `"Remote (Worldwide)"` then matches;
an explicitly supplied empty list matches nothing. -/
theorem C2_default_on_none :
    (∀ T, matches_location_word_boundary T none =
      matches_location_word_boundary T (some DEFAULT_LOCATIONS_allowed)) ∧
      matches_location_word_boundary "Remote (Worldwide)" none = true ∧
      (∀ T, matches_location_word_boundary T (some []) = false) :=
  ⟨fun _ => rfl, by decide, fun _ => rfl⟩

/-- C4: a multi-word term is matched as one contiguous phrase with boundaries
only at its outer edges: `"north america"` matches inside
`"Open to North America applicants"` but not inside
`"North American applicants"`. -/
theorem C4_multiword_phrase :
    matches_location_word_boundary "Open to North America applicants"
      (some ["north america"]) = true ∧
      matches_location_word_boundary "North American applicants"
        (some ["north america"]) = false := by
  refine ⟨by decide, by decide⟩

/-- C5: matching is case-insensitive in both arguments: lower-casing the text
and every term of the allow-list never changes the result, and the two
concrete mixed-case examples match. -/
theorem C5_case_insensitive :
    (∀ T L, matches_location_word_boundary T (some L) =
      matches_location_word_boundary (lowerString T) (some (L.map lowerString))) ∧
      matches_location_word_boundary "REMOTE" (some ["remote"]) = true ∧
      matches_location_word_boundary "Remote" (some ["REMOTE"]) = true := by
  refine ⟨?_, by decide, by decide⟩
  intro T L
  simp only [matches_location_word_boundary, List.any_map]
  have hfun : ∀ term : String,
      termSearch (lowerL (lowerString T).data) (lowerL (lowerString term).data) =
        termSearch (lowerL T.data) (lowerL term.data) := by
    intro term
    show termSearch (lowerL (lowerL T.data)) (lowerL (lowerL term.data)) = _
    rw [lowerL_lowerL, lowerL_lowerL]
  induction L with
  | nil => rfl
  | cons a l ih =>
    simp only [List.any_cons] at ih ⊢
    rw [ih, Function.comp_apply, hfun a]

/-- C6: an explicitly supplied empty allow-list yields `false` for every text,
without failing; in particular for `""` and `"anything"`. -/
theorem C6_empty_allowlist_false :
    (∀ T, matches_location_word_boundary T (some []) = false) ∧
      matches_location_word_boundary "" (some []) = false ∧
      matches_location_word_boundary "anything" (some []) = false :=
  ⟨fun _ => rfl, rfl, rfl⟩

/-- C7: the function is total — it returns one of the two booleans on every
input (regex metacharacters in the text or terms are matched literally, as the
code escapes each term) — and the parenthesised example matches. -/
theorem C7_total_special_chars :
    matches_location_word_boundary "C++ jobs (remote)" (some ["remote"]) = true ∧
      (∀ T L, matches_location_word_boundary T L = true ∨
        matches_location_word_boundary T L = false) :=
  ⟨by decide, fun T L => Bool.eq_false_or_eq_true (matches_location_word_boundary T L)⟩

/-- C8: the result is invariant under permutation of the allow-list, and it is
`true` exactly when some term of the list has a boundary-constrained
occurrence in the text. -/
theorem C8_order_irrelevant (T : String) (L M : List String) (hp : L.Perm M) :
    (matches_location_word_boundary T (some L) =
      matches_location_word_boundary T (some M)) ∧
      (matches_location_word_boundary T (some L) = true ↔
        ∃ term ∈ L, termSearch (lowerL T.data) (lowerL term.data) = true) := by
  have hchar : ∀ N : List String, matches_location_word_boundary T (some N) = true ↔
      ∃ term ∈ N, termSearch (lowerL T.data) (lowerL term.data) = true := by
    intro N
    simp [matches_location_word_boundary, List.any_eq_true]
  constructor
  · apply bool_eq_of_iff
    rw [hchar L, hchar M]
    constructor
    · rintro ⟨x, hx, h⟩
      exact ⟨x, hp.mem_iff.mp hx, h⟩
    · rintro ⟨x, hx, h⟩
      exact ⟨x, hp.mem_iff.mpr hx, h⟩
  · exact hchar L

/-- C8 (witness): the two orderings of `["canada", "usa"]` agree on a text
containing only `"canada"`. -/
theorem C8_witness :
    matches_location_word_boundary "Only in Canada" (some ["canada", "usa"]) =
      matches_location_word_boundary "Only in Canada" (some ["usa", "canada"]) :=
  (C8_order_irrelevant "Only in Canada" ["canada", "usa"] ["usa", "canada"]
    (by decide)).1

/-- C10: the function is deterministic — a pure function of its two inputs:
calls on equal texts and equal allow-lists return equal booleans. -/
theorem C10_deterministic (T₁ T₂ : String) (L₁ L₂ : Option (List String))
    (hT : T₁ = T₂) (hL : L₁ = L₂) :
    matches_location_word_boundary T₁ L₁ = matches_location_word_boundary T₂ L₂ := by
  rw [hT, hL]

/-- C10 (witness): two identical calls agree. -/
theorem C10_witness :
    matches_location_word_boundary "Remote" (some ["remote"]) =
      matches_location_word_boundary "Remote" (some ["remote"]) :=
  C10_deterministic "Remote" "Remote" (some ["remote"]) (some ["remote"]) rfl rfl

end JobBoard
